import Mathlib

/-!
# Eirini: dispatcher (Bifrost), deployment lister and service manager

A shallow embedding of `bifrost/bifrost.go`, `k8s/deployment.go` and the helpers of
`k8s/service_test.go`.

Conventions of the embedding.

* A Go `error` is `Option Go.Error`; `none` is the nil error.
* A Go pointer that a collaborator returns or that a request message carries is an `Option`;
  `none` is the nil pointer and dereferencing it panics. The structs the code builds itself
  and passes on by address are carried by value.
* A Go slice is a `Go.Slice`, which keeps the nil slice apart from the empty one.
* A Go `map[string]string` is a `Go.StrMap`, which keeps the nil map apart from the empty one.
* A Go `(value, error)` result is a pair: both components are always present.
* The collaborators (`Converter`, `opi.Desirer`, the orchestrator client) are interfaces; they
  are modelled as functions over an abstract collaborator state `σ`, and every call the
  embedded code makes to one of them is recorded, in order, in the `trace` of the `World`.
* The `context.Context` parameter is unused by every function and is left out.
-/

namespace Go

/-- Go `error` values; `wrap` is what `errors.Wrap(cause, msg)` builds. -/
inductive Error where
  | new (msg : String)
  | wrap (cause : Error) (msg : String)
  deriving DecidableEq, Repr

/-- Run-time panics the embedded code can raise. -/
inductive Panic where
  | nilDereference
  | nilMapAssignment
  deriving DecidableEq, Repr

/-- What a call does: it returns a value, or it panics. -/
inductive Outcome (α : Type) where
  | returned (val : α)
  | panicked (cause : Panic)
  deriving DecidableEq, Repr

/-- A Go slice: the nil slice, or a slice holding `elems`. -/
inductive Slice (α : Type) where
  | nil
  | of (elems : List α)
  deriving DecidableEq, Repr

/-- Elements a `range` loop over the slice visits; the nil slice has none. -/
def Slice.elems {α : Type} : Slice α → List α
  | .nil => []
  | .of xs => xs

/-- Go `append(s, x)`: the result is never the nil slice. -/
def Slice.append {α : Type} (s : Slice α) (x : α) : Slice α :=
  .of (s.elems ++ [x])

/-- A Go `map[string]string`: the nil map, or a map with the given bindings
(at most the first binding of a key counts). -/
inductive StrMap where
  | nil
  | of (entries : List (String × String))
  deriving DecidableEq, Repr

/-- Go `m[k]`: the value bound to `k`, the empty string when there is none or the map is nil. -/
def StrMap.get : StrMap → String → String
  | .nil, _ => ""
  | .of es, k => (es.lookup k).getD ""

/-- Whether the map has a binding for `k` (Go `_, ok := m[k]`). -/
def StrMap.contains : StrMap → String → Bool
  | .nil, _ => false
  | .of es, k => (es.lookup k).isSome

/-- Go `m[k] = v`: panics (`none`) on the nil map, otherwise rebinds `k`. -/
def StrMap.set : StrMap → String → String → Option StrMap
  | .nil, _, _ => none
  | .of es, k, v => some (.of ((k, v) :: es.filter (fun e => e.1 != k)))

/-- Go `int32(n)` for an `int` n: keeps the low 32 bits, read as two's complement. -/
def toInt32 (n : Int) : Int :=
  (n + 2 ^ 31) % 2 ^ 32 - 2 ^ 31

end Go

namespace opi

/-- Modelled from the spec: the `opi.LRP` struct (package `opi` is not among the sources);
the fields are those of the data model, with the Go types the code uses them at. -/
structure LRP where
  Name : String
  TargetInstances : Int
  RunningInstances : Int
  Metadata : Go.StrMap
  deriving DecidableEq, Repr

end opi

namespace cf

/-- Constants of package `models/cf` (not among the sources), taken as parameters:
the metadata keys and the instance state the code refers to. -/
structure Consts where
  ProcessGUID : String
  LastUpdated : String
  VcapAppUris : String
  RunningState : String
  deriving DecidableEq, Repr

/-- The fields of `cf.Instance` the code sets. -/
structure Instance where
  Index : Int
  State : String
  deriving DecidableEq, Repr

end cf

namespace models

/-- The fields of `models.DesiredLRPSchedulingInfo` the code sets
(`ProcessGuid` is `DesiredLRPKey.ProcessGuid`). -/
structure DesiredLRPSchedulingInfo where
  ProcessGuid : String
  Annotation : String
  deriving DecidableEq, Repr

/-- The `models.DesiredLRPUpdate` fields the code reads; both are pointers. -/
structure DesiredLRPUpdate where
  Instances : Option Int
  Annotation : Option String
  deriving DecidableEq, Repr

/-- The `models.UpdateDesiredLRPRequest` message; `Update` is a pointer. -/
structure UpdateDesiredLRPRequest where
  ProcessGuid : String
  Update : Option DesiredLRPUpdate
  deriving DecidableEq, Repr

/-- The fields of `models.DesiredLRP` the code sets; `Instances` is an `int32`. -/
structure DesiredLRP where
  ProcessGuid : String
  Instances : Int
  deriving DecidableEq, Repr

end models

namespace bifrost

/-- A value logged under a key of `lager.Data`. -/
inductive LogValue (Req : Type) where
  | request (r : Req)
  | str (s : String)
  deriving DecidableEq, Repr

/-- Calls the dispatcher makes to its collaborators, as recorded in the trace. -/
inductive Event (Req : Type) where
  | convert (request : Req)
  | desire (lrp : opi.LRP)
  | list
  | get (guid : String)
  | update (lrp : opi.LRP)
  | stop (guid : String)
  | logError (action : String) (err : Go.Error) (data : List (String × LogValue Req))
  deriving DecidableEq, Repr

/-- The `Converter` interface over the collaborator state. -/
structure Converter (Req σ : Type) where
  Convert : Req → σ → (opi.LRP × Option Go.Error) × σ

/-- The `opi.Desirer` interface over the collaborator state. `Get` returns a pointer and
`List` a slice of pointers. -/
structure Desirer (σ : Type) where
  Desire : opi.LRP → σ → Option Go.Error × σ
  Get : String → σ → (Option opi.LRP × Option Go.Error) × σ
  Update : opi.LRP → σ → Option Go.Error × σ
  Stop : String → σ → Option Go.Error × σ
  List : σ → (Go.Slice (Option opi.LRP) × Option Go.Error) × σ

/-- The dispatcher with its collaborators; the logger is the trace of the world. -/
structure Bifrost (Req σ : Type) where
  Converter : Converter Req σ
  Desirer : Desirer σ

/-- Collaborator state together with the calls made so far, oldest first. -/
structure World (Req σ : Type) where
  state : σ
  trace : List (Event Req)

/-- Records one more call. -/
def World.record {Req σ : Type} (w : World Req σ) (s : σ) (e : Event Req) : World Req σ :=
  { state := s, trace := w.trace ++ [e] }

/-- The call `b.Logger.Error(action, err, data)`. -/
def World.logError {Req σ : Type} (w : World Req σ) (action : String) (err : Go.Error)
    (data : List (String × LogValue Req)) : World Req σ :=
  w.record w.state (.logError action err data)

/-- The call `b.Converter.Convert(request)`. -/
def callConvert {Req σ : Type} (b : Bifrost Req σ) (request : Req) (w : World Req σ) :
    (opi.LRP × Option Go.Error) × World Req σ :=
  let r := b.Converter.Convert request w.state
  (r.1, w.record r.2 (.convert request))

/-- The call `b.Desirer.Desire(&lrp)`. -/
def callDesire {Req σ : Type} (b : Bifrost Req σ) (lrp : opi.LRP) (w : World Req σ) :
    Option Go.Error × World Req σ :=
  let r := b.Desirer.Desire lrp w.state
  (r.1, w.record r.2 (.desire lrp))

/-- The call `b.Desirer.Get(guid)`. -/
def callGet {Req σ : Type} (b : Bifrost Req σ) (guid : String) (w : World Req σ) :
    (Option opi.LRP × Option Go.Error) × World Req σ :=
  let r := b.Desirer.Get guid w.state
  (r.1, w.record r.2 (.get guid))

/-- The call `b.Desirer.Update(lrp)`. -/
def callUpdate {Req σ : Type} (b : Bifrost Req σ) (lrp : opi.LRP) (w : World Req σ) :
    Option Go.Error × World Req σ :=
  let r := b.Desirer.Update lrp w.state
  (r.1, w.record r.2 (.update lrp))

/-- The call `b.Desirer.Stop(guid)`. -/
def callStop {Req σ : Type} (b : Bifrost Req σ) (guid : String) (w : World Req σ) :
    Option Go.Error × World Req σ :=
  let r := b.Desirer.Stop guid w.state
  (r.1, w.record r.2 (.stop guid))

/-- The call `b.Desirer.List()`. -/
def callList {Req σ : Type} (b : Bifrost Req σ) (w : World Req σ) :
    (Go.Slice (Option opi.LRP) × Option Go.Error) × World Req σ :=
  let r := b.Desirer.List w.state
  (r.1, w.record r.2 .list)

/-- `func (b *Bifrost) Transfer(ctx, request) error`. -/
def Bifrost.Transfer {Req σ : Type} (b : Bifrost Req σ) (request : Req) (w : World Req σ) :
    Option Go.Error × World Req σ :=
  let c := callConvert b request w
  match c.1.2 with
  | some err =>
    (some err, c.2.logError "failed-to-convert-request" err
      [("desire-lrp-request", .request request)])
  | none => callDesire b c.1.1 c.2

/-- Loop of `toDesiredLRPSchedulingInfo`: one record is appended per LRP; reading the
metadata of a nil LRP pointer panics. -/
def toDesiredLRPSchedulingInfo.loop (k : cf.Consts) :
    List (Option opi.LRP) → Go.Slice models.DesiredLRPSchedulingInfo →
      Go.Outcome (Go.Slice models.DesiredLRPSchedulingInfo)
  | [], infos => .returned infos
  | none :: _, _ => .panicked .nilDereference
  | some l :: rest, infos =>
    toDesiredLRPSchedulingInfo.loop k rest
      (infos.append
        { ProcessGuid := l.Metadata.get k.ProcessGUID
          Annotation := l.Metadata.get k.LastUpdated })

/-- `func toDesiredLRPSchedulingInfo(lrps []*opi.LRP) []*models.DesiredLRPSchedulingInfo`;
`infos` starts as the empty, non-nil slice. -/
def toDesiredLRPSchedulingInfo (k : cf.Consts) (lrps : Go.Slice (Option opi.LRP)) :
    Go.Outcome (Go.Slice models.DesiredLRPSchedulingInfo) :=
  toDesiredLRPSchedulingInfo.loop k lrps.elems (.of [])

/-- `func (b *Bifrost) List(ctx) ([]*models.DesiredLRPSchedulingInfo, error)`. -/
def Bifrost.List {Req σ : Type} (b : Bifrost Req σ) (k : cf.Consts) (w : World Req σ) :
    Go.Outcome (Go.Slice models.DesiredLRPSchedulingInfo × Option Go.Error) × World Req σ :=
  let r := callList b w
  match r.1.2 with
  | some err =>
    (.returned (.nil, some (.wrap err "failed to list desired LRPs")),
      r.2.logError "failed-to-list-deployments" err [])
  | none =>
    match toDesiredLRPSchedulingInfo k r.1.1 with
    | .returned infos => (.returned (infos, none), r.2)
    | .panicked cause => (.panicked cause, r.2)

/-- `func (b *Bifrost) Update(ctx, update) error`. The two assignments go through the
pointer `Get` returned; the pointee is carried by value and handed to `Desirer.Update`. -/
def Bifrost.Update {Req σ : Type} (b : Bifrost Req σ) (k : cf.Consts)
    (update : models.UpdateDesiredLRPRequest) (w : World Req σ) :
    Go.Outcome (Option Go.Error) × World Req σ :=
  let r := callGet b update.ProcessGuid w
  match r.1.2 with
  | some err =>
    (.returned (some err),
      r.2.logError "application-not-found" err [("process-guid", .str update.ProcessGuid)])
  | none =>
    -- lrp.TargetInstances = int(*update.Update.Instances)
    match r.1.1, update.Update with
    | none, _ => (.panicked .nilDereference, r.2)
    | some _, none => (.panicked .nilDereference, r.2)
    | some lrp, some u =>
      match u.Instances with
      | none => (.panicked .nilDereference, r.2)
      | some instances =>
        let lrp1 := { lrp with TargetInstances := instances }
        -- lrp.Metadata[cf.LastUpdated] = *update.Update.Annotation
        match u.Annotation with
        | none => (.panicked .nilDereference, r.2)
        | some note =>
          match lrp1.Metadata.set k.LastUpdated note with
          | none => (.panicked .nilMapAssignment, r.2)
          | some metadata =>
            let lrp2 := { lrp1 with Metadata := metadata }
            let u := callUpdate b lrp2 r.2
            (.returned u.1, u.2)

/-- `func (b *Bifrost) GetApp(ctx, guid) *models.DesiredLRP`. -/
def Bifrost.GetApp {Req σ : Type} (b : Bifrost Req σ) (guid : String) (w : World Req σ) :
    Go.Outcome (Option models.DesiredLRP) × World Req σ :=
  let r := callGet b guid w
  match r.1.2 with
  | some err =>
    (.returned none, r.2.logError "failed-to-get-deployment" err [("process-guid", .str guid)])
  | none =>
    match r.1.1 with
    | none => (.panicked .nilDereference, r.2)
    | some lrp =>
      (.returned (some
        { ProcessGuid := lrp.Name
          Instances := Go.toInt32 lrp.TargetInstances }), r.2)

/-- `func (b *Bifrost) Stop(ctx, guid) error`. -/
def Bifrost.Stop {Req σ : Type} (b : Bifrost Req σ) (guid : String) (w : World Req σ) :
    Option Go.Error × World Req σ :=
  callStop b guid w

/-- The `for i := 0; i < lrp.RunningInstances; i++` loop of `GetInstances`, entered with
the counter at `i` and the slice built so far. -/
def GetInstances.loop (k : cf.Consts) (running : Int) (i : Int)
    (result : Go.Slice cf.Instance) : Go.Slice cf.Instance :=
  if i < running then
    GetInstances.loop k running (i + 1) (result.append { Index := i, State := k.RunningState })
  else result
termination_by (running - i).toNat
decreasing_by omega

/-- `func (b *Bifrost) GetInstances(ctx, guid) ([]*cf.Instance, error)`. -/
def Bifrost.GetInstances {Req σ : Type} (b : Bifrost Req σ) (k : cf.Consts) (guid : String)
    (w : World Req σ) : Go.Outcome (Go.Slice cf.Instance × Option Go.Error) × World Req σ :=
  let r := callGet b guid w
  match r.1.2 with
  | some err =>
    (.returned (.nil, some err),
      r.2.logError "failed-to-get-lrp" err [("process-guid", .str guid)])
  | none =>
    match r.1.1 with
    | none => (.panicked .nilDereference, r.2)
    | some lrp => (.returned (GetInstances.loop k lrp.RunningInstances 0 (.of []), none), r.2)

end bifrost

namespace eirini

/-- Modelled from the spec: `eirini.GetInternalServiceName` (package `eirini` is not among the
sources). The naming function of the routable variant, in the constant scheme the spec
gives: the name is the process name itself, `"<processName>"`. -/
def GetInternalServiceName (appName : String) : String :=
  appName

/-- Modelled from the spec: `eirini.GetInternalHeadlessServiceName` (package `eirini` is not
among the sources). The naming function of the headless variant, in the constant scheme the
spec gives: the process name followed by the fixed role suffix, `"<processName>-headless"`. -/
def GetInternalHeadlessServiceName (appName : String) : String :=
  appName ++ "-headless"

end eirini

namespace k8s

/-- The field of a `v1beta1.Deployment` the lister reads. -/
structure Deployment where
  Annotations : Go.StrMap
  deriving DecidableEq, Repr

/-- The field of a `v1beta1.DeploymentList` the lister reads. -/
structure DeploymentList where
  Items : Go.Slice Deployment
  deriving DecidableEq, Repr

/-- The orchestrator client behind `deploymentManager`:
`client.AppsV1beta1().Deployments(namespace).List(av1.ListOptions{})`, which returns a
pointer and an error. -/
structure deploymentManager (σ : Type) where
  client : String → σ → (Option DeploymentList × Option Go.Error) × σ

/-- Loop of `toLRPs`: one LRP per item, only `Name` set, the other fields at their zero
values. -/
def toLRPs.loop : List Deployment → Go.Slice opi.LRP → Go.Slice opi.LRP
  | [], lrps => lrps
  | d :: rest, lrps =>
    toLRPs.loop rest
      (lrps.append
        { Name := d.Annotations.get "process_guid"
          TargetInstances := 0
          RunningInstances := 0
          Metadata := .nil })

/-- `func toLRPs(deployments *v1beta1.DeploymentList) []opi.LRP`; reading `Items` through a
nil pointer panics. -/
def toLRPs (deployments : Option DeploymentList) : Go.Outcome (Go.Slice opi.LRP) :=
  match deployments with
  | none => .panicked .nilDereference
  | some ds => .returned (toLRPs.loop ds.Items.elems (.of []))

/-- `func (m *deploymentManager) ListLRPs(namespace string) ([]opi.LRP, error)`, run on the
client state `s`. -/
def deploymentManager.ListLRPs {σ : Type} (m : deploymentManager σ) (ns : String) (s : σ) :
    Go.Outcome (Go.Slice opi.LRP × Option Go.Error) × σ :=
  let r := m.client ns s
  match r.1.2 with
  | some err => (.returned (.nil, some err), r.2)
  | none =>
    match toLRPs r.1.1 with
    | .returned lrps => (.returned (lrps, none), r.2)
    | .panicked cause => (.panicked cause, r.2)

/-- The fields of a `v1.ServicePort` the helpers set; `Port` is an `int32`. -/
structure ServicePort where
  Name : String
  Port : Int
  deriving DecidableEq, Repr

/-- The fields of a `v1.ServiceSpec` the helpers set. -/
structure ServiceSpec where
  ClusterIP : String
  Ports : Go.Slice ServicePort
  Selector : Go.StrMap
  deriving DecidableEq, Repr

/-- The fields of a `v1.Service` the helpers set. -/
structure Service where
  Name : String
  Namespace : String
  Labels : Go.StrMap
  Annotations : Go.StrMap
  Spec : ServiceSpec
  deriving DecidableEq, Repr

/-- `func toService(lrp *opi.LRP, namespace string) *v1.Service` of `service_test.go`. -/
def toService (k : cf.Consts) (lrp : opi.LRP) (ns : String) : Service :=
  { Spec :=
      { ClusterIP := ""
        Ports := .of [{ Name := "service", Port := 8080 }]
        Selector := .of [("name", lrp.Name)] }
    Name := eirini.GetInternalServiceName lrp.Name
    Namespace := ns
    Labels := .of [("name", lrp.Name)]
    Annotations := .of [("routes", lrp.Metadata.get k.VcapAppUris)] }

/-- `func toHeadlessService(lrp *opi.LRP, namespace string) *v1.Service` of
`service_test.go`; `Annotations` is left nil. -/
def toHeadlessService (lrp : opi.LRP) (ns : String) : Service :=
  { Spec :=
      { ClusterIP := "None"
        Ports := .of [{ Name := "service", Port := 8080 }]
        Selector := .of [("name", lrp.Name)] }
    Name := eirini.GetInternalHeadlessServiceName lrp.Name
    Namespace := ns
    Labels := .of [("name", lrp.Name)]
    Annotations := .nil }

/-- Modelled from the spec: the failure kinds of the exposure-object operations, Conflict
and NotFound of the error taxonomy. -/
inductive ApiError where
  | Conflict
  | NotFound
  deriving DecidableEq, Repr

/-- Modelled from the spec: the orchestrator's object store for exposure objects (the client
is an external collaborator): the objects of all namespaces, an object being identified by
its namespace and name. -/
abbrev Store := List Service

/-- Whether `s` is the object called `name` in namespace `ns`. -/
def Service.isNamed (ns name : String) (s : Service) : Bool :=
  s.Namespace == ns && s.Name == name

/-- Modelled from the spec: reading one object of a namespace by name, as the test does with
`Services(namespace).Get(name, ...)`; `none` when the namespace has no such object. -/
def Store.get (store : Store) (ns name : String) : Option Service :=
  store.find? (Service.isNamed ns name)

/-- Modelled from the spec: the objects of one namespace, as the test lists them with
`Services(namespace).List(...)`. -/
def Store.list (store : Store) (ns : String) : List Service :=
  store.filter (fun s => s.Namespace == ns)

/-- Modelled from the spec: the collaborator's create, an atomic check-and-create that fails
with Conflict when an object of that name already exists in the namespace and otherwise
adds the object. -/
def Store.create (store : Store) (svc : Service) : Option ApiError × Store :=
  match store.get svc.Namespace svc.Name with
  | some _ => (some .Conflict, store)
  | none => (none, store ++ [svc])

/-- Modelled from the spec: the collaborator's delete, which fails with NotFound when the
namespace has no object of that name and otherwise removes it. -/
def Store.delete (store : Store) (ns name : String) : Option ApiError × Store :=
  match store.get ns name with
  | none => (some .NotFound, store)
  | some _ => (none, store.filter (fun s => !Service.isNamed ns name s))

/-- Modelled from the spec: the routable exposure object `Create` builds (the service
manager is not among the sources): named by the routable naming function of `lrp.Name`,
labelled and selected by `name = lrp.Name`, the fixed port 8080 (called "service", as the
test expects), and the annotation `routes` set to the LRP's routes metadata value. -/
def routableObject (k : cf.Consts) (lrp : opi.LRP) (ns : String) : Service :=
  { Name := eirini.GetInternalServiceName lrp.Name
    Namespace := ns
    Labels := .of [("name", lrp.Name)]
    Annotations := .of [("routes", lrp.Metadata.get k.VcapAppUris)]
    Spec :=
      { ClusterIP := ""
        Ports := .of [{ Name := "service", Port := 8080 }]
        Selector := .of [("name", lrp.Name)] } }

/-- Modelled from the spec: the headless exposure object `CreateHeadless` builds (the service
manager is not among the sources): named by the headless naming function, same selector,
label and port as the routable one, no stable cluster address and no routes annotation. -/
def headlessObject (lrp : opi.LRP) (ns : String) : Service :=
  { Name := eirini.GetInternalHeadlessServiceName lrp.Name
    Namespace := ns
    Labels := .of [("name", lrp.Name)]
    Annotations := .nil
    Spec :=
      { ClusterIP := "None"
        Ports := .of [{ Name := "service", Port := 8080 }]
        Selector := .of [("name", lrp.Name)] } }

/-- Modelled from the spec: the service manager (`k8s/service.go` is not among the sources),
built by `NewServiceManager(client, namespace)`; it works on one namespace. -/
structure ServiceManager where
  ns : String
  consts : cf.Consts
  deriving DecidableEq, Repr

/-- Modelled from the spec: `ServiceManager.Create(lrp)`, missing from the sources: builds the
routable object and creates it only if absent; it never overwrites. -/
def ServiceManager.Create (m : ServiceManager) (lrp : opi.LRP) (store : Store) :
    Option ApiError × Store :=
  store.create (routableObject m.consts lrp m.ns)

/-- Modelled from the spec: `ServiceManager.CreateHeadless(lrp)`, missing from the sources:
same contract as `Create` for the headless object. -/
def ServiceManager.CreateHeadless (m : ServiceManager) (lrp : opi.LRP) (store : Store) :
    Option ApiError × Store :=
  store.create (headlessObject lrp m.ns)

/-- Modelled from the spec: `ServiceManager.Delete(name)`, missing from the sources: deletes
the object whose name the routable naming function derives from `name`. -/
def ServiceManager.Delete (m : ServiceManager) (name : String) (store : Store) :
    Option ApiError × Store :=
  store.delete m.ns (eirini.GetInternalServiceName name)

/-- Modelled from the spec: `ServiceManager.DeleteHeadless(name)`, missing from the sources:
deletes the object whose name the headless naming function derives from `name`. -/
def ServiceManager.DeleteHeadless (m : ServiceManager) (name : String) (store : Store) :
    Option ApiError × Store :=
  store.delete m.ns (eirini.GetInternalHeadlessServiceName name)

end k8s

namespace bifrost

/-- The LRPs handed to `Desirer.Desire` in a trace, in call order. -/
def desireCalls {Req : Type} (trace : List (Event Req)) : List opi.LRP :=
  trace.filterMap (fun e => match e with
    | .desire lrp => some lrp
    | _ => none)

/-- The LRPs handed to `Desirer.Update` in a trace, in call order. -/
def updateCalls {Req : Type} (trace : List (Event Req)) : List opi.LRP :=
  trace.filterMap (fun e => match e with
    | .update lrp => some lrp
    | _ => none)

end bifrost

/-! ## Test doubles used to run the code on concrete inputs -/

namespace scenario

/-- Values for the constants of package `models/cf`. -/
def consts : cf.Consts :=
  { ProcessGUID := "process_guid"
    LastUpdated := "last_updated"
    VcapAppUris := "routes"
    RunningState := "running" }

/-- A desirer double that keeps the desired LRPs in a list. -/
def desirer : bifrost.Desirer (List opi.LRP) where
  Desire lrp s := (none, s ++ [lrp])
  Get guid s :=
    match s.find? (fun l => l.Name == guid) with
    | some l => ((some l, none), s)
    | none => ((none, some (.new "not found")), s)
  Update lrp s := (none, s.map (fun l => if l.Name == lrp.Name then lrp else l))
  Stop guid s := (none, s.filter (fun l => l.Name != guid))
  List s := ((.of (s.map some), none), s)

/-- A converter double: the request is the process name; the empty request is rejected. -/
def converter : bifrost.Converter String (List opi.LRP) where
  Convert request s :=
    if request = "" then
      (({ Name := "", TargetInstances := 0, RunningInstances := 0, Metadata := .nil },
        some (.new "invalid request")), s)
    else
      (({ Name := request, TargetInstances := 1, RunningInstances := 0,
          Metadata := .of [("process_guid", request)] }, none), s)

/-- The dispatcher over the two doubles. -/
def dispatcher : bifrost.Bifrost String (List opi.LRP) :=
  { Converter := converter, Desirer := desirer }

/-- The LRP `odin`: two instances desired, one running. -/
def odin : opi.LRP :=
  { Name := "odin"
    TargetInstances := 2
    RunningInstances := 1
    Metadata := .of [("process_guid", "odin"), ("last_updated", "21"), ("routes", "1234.5")] }

/-- A world in which `odin` is desired and nothing has been called yet. -/
def world : bifrost.World String (List opi.LRP) :=
  { state := [odin], trace := [] }

/-- The LRP `thor`, desired with 2^31 instances. -/
def thor : opi.LRP :=
  { Name := "thor"
    TargetInstances := 2147483648
    RunningInstances := 0
    Metadata := .of [("process_guid", "thor")] }

/-- A world in which `thor` is desired and nothing has been called yet. -/
def worldOfThor : bifrost.World String (List opi.LRP) :=
  { state := [thor], trace := [] }

/-- The LRP `baldur` of the service tests, `createLRP("baldur", "54321.0")`. -/
def baldur : opi.LRP :=
  { Name := "baldur"
    TargetInstances := 1
    RunningInstances := 0
    Metadata := .of [("routes", "54321.0")] }

/-- The service manager of the service tests, on namespace `midgard`. -/
def serviceManager : k8s.ServiceManager :=
  { ns := "midgard", consts := consts }

/-- The LRP the converter double produces for the request `odin`. -/
def converted : opi.LRP :=
  { Name := "odin"
    TargetInstances := 1
    RunningInstances := 0
    Metadata := .of [("process_guid", "odin")] }

/-- A world in which nothing is desired and nothing has been called yet. -/
def emptyWorld : bifrost.World String (List opi.LRP) :=
  { state := [], trace := [] }

/-- An orchestrator client double: the state is the list of workload objects of the one
namespace `midgard`; listing any other namespace fails. -/
def lister : k8s.deploymentManager (List k8s.Deployment) where
  client ns s :=
    if ns = "midgard" then ((some { Items := .of s }, none), s)
    else ((none, some (.new "forbidden")), s)

/-- Two workload objects, the second without a `process_guid` annotation. -/
def deployments : List k8s.Deployment :=
  [{ Annotations := .of [("process_guid", "odin")] }, { Annotations := .nil }]

/-- The LRP of the deletion tests, `createLRP("odin", "1234.5")`. -/
def odinRoutes : opi.LRP :=
  { Name := "odin"
    TargetInstances := 1
    RunningInstances := 0
    Metadata := .of [("routes", "1234.5")] }

/-- An update of `odin` that carries an instance count but no annotation. -/
def updateOfCountOnly : models.UpdateDesiredLRPRequest :=
  { ProcessGuid := "odin", Update := some { Instances := some 3, Annotation := none } }

/-- An update of `tyr`, which is not desired, that carries no values at all. -/
def updateOfAbsent : models.UpdateDesiredLRPRequest :=
  { ProcessGuid := "tyr", Update := none }

/-- An update of `odin` that carries both an instance count and an annotation. -/
def updateFull : models.UpdateDesiredLRPRequest :=
  { ProcessGuid := "odin", Update := some { Instances := some 3, Annotation := some "22" } }

end scenario

/-! ## Dispatcher: `Transfer` -/

namespace bifrost

/-- C1: `Transfer` calls `Converter.Convert` once. When the conversion succeeds, it then calls
`Desirer.Desire` exactly once, with the converted LRP, and returns the result of `Desire`
unchanged; when the conversion fails, it returns the converter's error, logs, and `Desire`
is not called (the collaborator state is the one `Convert` left). -/
theorem Transfer_desires_once {Req σ : Type} (b : Bifrost Req σ) (request : Req)
    (w : World Req σ) :
    match b.Converter.Convert request w.state with
    | ((lrp, none), s) =>
      b.Transfer request w =
        ((b.Desirer.Desire lrp s).1,
          { state := (b.Desirer.Desire lrp s).2
            trace := w.trace ++ [.convert request, .desire lrp] })
      ∧ desireCalls (b.Transfer request w).2.trace = desireCalls w.trace ++ [lrp]
    | ((_, some err), s) =>
      b.Transfer request w =
        (some err,
          { state := s
            trace := w.trace ++ [.convert request,
              .logError "failed-to-convert-request" err
                [("desire-lrp-request", .request request)]] })
      ∧ desireCalls (b.Transfer request w).2.trace = desireCalls w.trace := by
  rcases hc : b.Converter.Convert request w.state with ⟨⟨lrp, err⟩, s⟩
  cases err with
  | none =>
    simp [Bifrost.Transfer, callConvert, callDesire, World.record, hc, desireCalls]
  | some e =>
    simp [Bifrost.Transfer, callConvert, World.logError, World.record, hc, desireCalls]

/-- Witness of C1: the request `odin` is converted and desired once; the empty request is
rejected by the converter and nothing is desired. -/
theorem Transfer_desires_once_witness :
    scenario.dispatcher.Transfer "odin" scenario.emptyWorld =
        (none,
          { state := [scenario.converted]
            trace := [.convert "odin", .desire scenario.converted] })
    ∧ scenario.dispatcher.Transfer "" scenario.emptyWorld =
        (some (.new "invalid request"),
          { state := []
            trace := [.convert "",
              .logError "failed-to-convert-request" (.new "invalid request")
                [("desire-lrp-request", .request "")]] }) :=
  ⟨(Transfer_desires_once scenario.dispatcher "odin" scenario.emptyWorld).1,
    (Transfer_desires_once scenario.dispatcher "" scenario.emptyWorld).1⟩

end bifrost

/-! ## Dispatcher: `Update` -/

namespace Go

/-- Filtering out the bindings of `k` does not change what another key is bound to. -/
theorem lookup_filter_ne (es : List (String × String)) (k key : String) (h : key ≠ k) :
    (es.filter (fun e => e.1 != k)).lookup key = es.lookup key := by
  induction es with
  | nil => rfl
  | cons e rest ih =>
    obtain ⟨a, v⟩ := e
    by_cases hak : a = k
    · subst hak
      have hne : (key == a) = false := by simpa using h
      simp [List.filter, List.lookup, hne, ih]
    · have hk : (a != k) = true := by simpa using hak
      simp only [List.filter, hk, List.lookup, ih]

/-- After `m[k] = v`, reading `k` gives `v` and every other key reads as before. -/
theorem StrMap.get_set (m m1 : StrMap) (k v key : String) (h : m.set k v = some m1) :
    m1.get key = if key = k then v else m.get key := by
  cases m with
  | nil => simp [StrMap.set] at h
  | of es =>
    simp only [StrMap.set, Option.some.injEq] at h
    subst h
    by_cases hk : key = k
    · subst hk
      simp [StrMap.get, List.lookup]
    · have hne : (key == k) = false := by simpa using hk
      simp [StrMap.get, List.lookup, hne, hk, lookup_filter_ne es k key hk]

/-- Reading a key the map has no binding for gives the empty string. -/
theorem StrMap.get_of_not_contains (m : StrMap) (k : String) (h : m.contains k = false) :
    m.get k = "" := by
  cases m with
  | nil => rfl
  | of es =>
    simp only [StrMap.contains] at h
    cases hl : es.lookup k with
    | none => simp [StrMap.get, hl]
    | some v => simp [hl] at h

/-- Assigning into a non-nil map does not panic. -/
theorem StrMap.set_of (es : List (String × String)) (k v : String) :
    ∃ m1, (StrMap.of es).set k v = some m1 :=
  ⟨_, rfl⟩

end Go

namespace bifrost

/-- C2, as stated, fails: for the update of `odin` that carries an instance count but no
annotation, the lookup succeeds, yet `Update` panics on the nil annotation pointer and
`Desirer.Update` is never called. -/
theorem Update_without_annotation_panics :
    (scenario.dispatcher.Desirer.Get scenario.updateOfCountOnly.ProcessGuid
        scenario.world.state).1 = (some scenario.odin, none)
    ∧ (scenario.dispatcher.Update scenario.consts scenario.updateOfCountOnly
        scenario.world).1 = .panicked .nilDereference
    ∧ updateCalls (scenario.dispatcher.Update scenario.consts
        scenario.updateOfCountOnly scenario.world).2.trace = [] := by
  refine ⟨?_, ?_, ?_⟩ <;>
    simp [scenario.dispatcher, scenario.desirer, scenario.world, scenario.odin,
      scenario.updateOfCountOnly, Bifrost.Update, callGet, World.record, updateCalls]

/-- C2, amended. For every update request: if `Desirer.Get` for the process GUID fails,
`Update` returns that error, logs, and `Desirer.Update` is not called (the collaborator
state is the one `Get` left). For an update request that carries an instance count and an
annotation: if `Get` returns an LRP whose metadata map is not nil, `Desirer.Update` is
called exactly once, on the fetched LRP with `TargetInstances` equal to the requested
count and the last-updated key bound to the requested annotation, every other field and
metadata key as fetched, and `Update` returns the result of that call. -/
theorem Update_all_or_nothing {Req σ : Type} (b : Bifrost Req σ) (k : cf.Consts)
    (update : models.UpdateDesiredLRPRequest) (w : World Req σ) :
    (∀ (p : Option opi.LRP) (err : Go.Error) (s : σ),
        b.Desirer.Get update.ProcessGuid w.state = ((p, some err), s) →
        b.Update k update w =
          (.returned (some err),
            { state := s
              trace := w.trace ++ [.get update.ProcessGuid,
                .logError "application-not-found" err
                  [("process-guid", .str update.ProcessGuid)]] })
        ∧ updateCalls (b.Update k update w).2.trace = updateCalls w.trace)
    ∧ (∀ (instances : Int) (note : String) (lrp : opi.LRP) (es : List (String × String))
        (s : σ),
        update.Update = some ⟨some instances, some note⟩ →
        b.Desirer.Get update.ProcessGuid w.state = ((some lrp, none), s) →
        lrp.Metadata = .of es →
        ∃ updated : opi.LRP,
          updated.Name = lrp.Name
          ∧ updated.RunningInstances = lrp.RunningInstances
          ∧ updated.TargetInstances = instances
          ∧ updated.Metadata.get k.LastUpdated = note
          ∧ (∀ key, key ≠ k.LastUpdated → updated.Metadata.get key = lrp.Metadata.get key)
          ∧ b.Update k update w =
              (.returned (b.Desirer.Update updated s).1,
                { state := (b.Desirer.Update updated s).2
                  trace := w.trace ++ [.get update.ProcessGuid, .update updated] })
          ∧ updateCalls (b.Update k update w).2.trace = updateCalls w.trace ++ [updated]) := by
  constructor
  · intro p err s hget
    simp [Bifrost.Update, callGet, World.logError, World.record, hget, updateCalls]
  · intro instances note lrp es s hreq hget hmd
    obtain ⟨md, hset⟩ := Go.StrMap.set_of es k.LastUpdated note
    refine ⟨{ lrp with TargetInstances := instances, Metadata := md }, rfl, rfl, rfl, ?_, ?_, ?_, ?_⟩
    · simpa using Go.StrMap.get_set _ _ _ _ k.LastUpdated hset
    · intro key hkey
      simpa [hkey, hmd] using Go.StrMap.get_set _ _ _ _ key hset
    · simp [Bifrost.Update, callGet, callUpdate, World.record, hreq, hget, hmd, hset]
    · simp [Bifrost.Update, callGet, callUpdate, World.record, hreq, hget, hmd, hset,
        updateCalls]

/-- Witness of C2: the full update of `odin` reaches `Desirer.Update` once, with three
instances and the annotation "22"; an update of the absent `tyr` that carries neither
value returns the lookup error and reaches `Desirer.Update` not at all. -/
theorem Update_all_or_nothing_witness :
    (∃ updated : opi.LRP,
      updated.TargetInstances = 3
      ∧ updated.Metadata.get scenario.consts.LastUpdated = "22"
      ∧ updateCalls (scenario.dispatcher.Update scenario.consts scenario.updateFull
          scenario.world).2.trace = [updated])
    ∧ (scenario.dispatcher.Update scenario.consts scenario.updateOfAbsent
          scenario.world).1 = .returned (some (.new "not found"))
    ∧ updateCalls (scenario.dispatcher.Update scenario.consts scenario.updateOfAbsent
          scenario.world).2.trace = [] := by
  obtain ⟨updated, -, -, h3, h4, -, -, h7⟩ :=
    (Update_all_or_nothing scenario.dispatcher scenario.consts scenario.updateFull
      scenario.world).2 3 "22" scenario.odin _ _ rfl rfl rfl
  have hfail :=
    (Update_all_or_nothing scenario.dispatcher scenario.consts scenario.updateOfAbsent
      scenario.world).1 none (.new "not found") [scenario.odin] rfl
  refine ⟨⟨updated, h3, h4, by simpa [scenario.world, updateCalls] using h7⟩, ?_, ?_⟩
  · rw [hfail.1]
  · simpa [scenario.world, updateCalls] using hfail.2

/-- When the fetched LRP has a nil metadata map, `Update` panics on the assignment of the
last-updated key and `Desirer.Update` is not called. -/
theorem Update_nil_metadata_panics {Req σ : Type} (b : Bifrost Req σ) (k : cf.Consts)
    (update : models.UpdateDesiredLRPRequest) (w : World Req σ) (instances : Int)
    (note : String) (lrp : opi.LRP) (s : σ)
    (hreq : update.Update = some ⟨some instances, some note⟩)
    (hget : b.Desirer.Get update.ProcessGuid w.state = ((some lrp, none), s))
    (hmd : lrp.Metadata = .nil) :
    b.Update k update w =
      (.panicked .nilMapAssignment,
        { state := s, trace := w.trace ++ [.get update.ProcessGuid] }) := by
  simp [Bifrost.Update, callGet, World.record, hreq, hget, hmd, Go.StrMap.set]

end bifrost

/-! ## Dispatcher: `GetInstances`, `List`, `GetApp` -/

namespace Go

/-- `int32(n)` is `n` exactly when `n` is in the `int32` range. -/
theorem toInt32_eq_iff (n : Int) : toInt32 n = n ↔ -2 ^ 31 ≤ n ∧ n < 2 ^ 31 := by
  unfold toInt32
  norm_num
  omega

end Go

namespace bifrost

/-- The loop of `GetInstances`, entered at counter `i` with `n` iterations left, appends
the records of indices `i`, `i + 1`, ..., `i + n - 1`, all in the running state. -/
theorem GetInstances_loop_eq (k : cf.Consts) (running : Int) (n : Nat) :
    ∀ (i : Int) (xs : List cf.Instance), (running - i).toNat = n →
      GetInstances.loop k running i (.of xs) =
        .of (xs ++ (List.range n).map (fun j => { Index := i + j, State := k.RunningState })) := by
  induction n with
  | zero =>
    intro i xs hn
    rw [GetInstances.loop]
    have : ¬ i < running := by omega
    simp [this]
  | succ n ih =>
    intro i xs hn
    rw [GetInstances.loop]
    have hlt : i < running := by omega
    have hn1 : (running - (i + 1)).toNat = n := by omega
    simp only [hlt, if_true, Go.Slice.append, Go.Slice.elems]
    rw [ih (i + 1) _ hn1, List.range_succ_eq_map]
    simp only [List.map_cons, List.map_map, Function.comp_def, List.append_assoc,
      List.singleton_append, Nat.cast_zero, add_zero, Nat.cast_succ]
    congr 3
    apply List.map_congr_left
    intro a _
    congr 1
    omega

/-- C6: when `Desirer.Get` returns an LRP (with `RunningInstances` not negative, as the data
model has it), `GetInstances` returns, with no error, a non-nil sequence of exactly
`RunningInstances` records; the record at position `i` has index `i` and the running
state, so the indices are pairwise distinct; the sequence is the empty, non-nil one when
`RunningInstances = 0`. -/
theorem GetInstances_one_record_per_running_instance {Req σ : Type} (b : Bifrost Req σ)
    (k : cf.Consts) (guid : String) (w : World Req σ) (lrp : opi.LRP) (s : σ)
    (hget : b.Desirer.Get guid w.state = ((some lrp, none), s))
    (hrun : 0 ≤ lrp.RunningInstances) :
    ∃ records : List cf.Instance,
      b.GetInstances k guid w =
        (.returned (.of records, none), { state := s, trace := w.trace ++ [.get guid] })
      ∧ (records.length : Int) = lrp.RunningInstances
      ∧ (∀ i : Nat, i < records.length →
          records[i]? = some { Index := (i : Int), State := k.RunningState })
      ∧ (records.map cf.Instance.Index).Nodup
      ∧ (lrp.RunningInstances = 0 → records = []) := by
  refine ⟨(List.range lrp.RunningInstances.toNat).map
    (fun (j : Nat) => { Index := (j : Int), State := k.RunningState }), ?_, ?_, ?_, ?_, ?_⟩
  · have h := GetInstances_loop_eq k lrp.RunningInstances lrp.RunningInstances.toNat 0 []
      (by simp)
    simp [Bifrost.GetInstances, callGet, World.record, hget, h]
  · simp [Int.toNat_of_nonneg hrun]
  · intro i hi
    simp only [List.length_map, List.length_range] at hi
    simp [List.getElem?_map, List.getElem?_range hi]
  · simp only [List.map_map, Function.comp_def]
    exact (List.nodup_range _).map (fun a c h => by simpa using h)
  · intro h0
    simp [h0]

/-- Witness of C6: `odin` has one running instance, so there is one record, of index 0. -/
theorem GetInstances_one_record_per_running_instance_witness :
    (scenario.dispatcher.GetInstances scenario.consts "odin" scenario.world).1 =
      .returned (.of [{ Index := 0, State := "running" }], none) := by
  obtain ⟨records, heq, hlen, hidx, -, -⟩ :=
    GetInstances_one_record_per_running_instance scenario.dispatcher scenario.consts "odin"
      scenario.world scenario.odin [scenario.odin] rfl (by decide)
  have h1 : records.length = 1 := by
    have : (records.length : Int) = 1 := hlen
    exact_mod_cast this
  have h0 := hidx 0 (by omega)
  match records, h1, h0 with
  | [r], _, h0 =>
    simp only [List.getElem?_cons_zero, Option.some.injEq] at h0
    rw [heq, h0]
    rfl

end bifrost

namespace bifrost

/-- The loop of `toDesiredLRPSchedulingInfo` over non-nil pointers appends one record per
LRP, in order, and does not panic. -/
theorem toDesiredLRPSchedulingInfo_loop_eq (k : cf.Consts) (lrps : List opi.LRP) :
    ∀ xs : List models.DesiredLRPSchedulingInfo,
      toDesiredLRPSchedulingInfo.loop k (lrps.map some) (.of xs) =
        .returned (.of (xs ++ lrps.map (fun l =>
          { ProcessGuid := l.Metadata.get k.ProcessGUID
            Annotation := l.Metadata.get k.LastUpdated }))) := by
  induction lrps with
  | nil => intro xs; simp [toDesiredLRPSchedulingInfo.loop]
  | cons l rest ih =>
    intro xs
    simp [toDesiredLRPSchedulingInfo.loop, Go.Slice.append, Go.Slice.elems, ih]

/-- C7: when `Desirer.List` returns, with no error, a slice of LRPs (nil, empty or not),
`List` returns, with no error, a non-nil sequence of the same length whose `i`-th record has
`ProcessGuid` equal to the process-GUID metadata value of the `i`-th LRP and `Annotation`
equal to its last-updated metadata value, a missing key reading as the empty string. -/
theorem List_one_record_per_lrp {Req σ : Type} (b : Bifrost Req σ) (k : cf.Consts)
    (w : World Req σ) (slice : Go.Slice (Option opi.LRP)) (lrps : List opi.LRP) (s : σ)
    (hlist : b.Desirer.List w.state = ((slice, none), s))
    (hlrps : slice.elems = lrps.map some) :
    ∃ infos : List models.DesiredLRPSchedulingInfo,
      b.List k w = (.returned (.of infos, none), { state := s, trace := w.trace ++ [.list] })
      ∧ infos.length = lrps.length
      ∧ (∀ (i : Nat) (l : opi.LRP), lrps[i]? = some l →
          infos[i]? = some
            { ProcessGuid := l.Metadata.get k.ProcessGUID
              Annotation := l.Metadata.get k.LastUpdated })
      ∧ (∀ (l : opi.LRP) (key : String), l.Metadata.contains key = false →
          l.Metadata.get key = "") := by
  refine ⟨lrps.map (fun l =>
    { ProcessGuid := l.Metadata.get k.ProcessGUID
      Annotation := l.Metadata.get k.LastUpdated }), ?_, ?_, ?_, ?_⟩
  · have h := toDesiredLRPSchedulingInfo_loop_eq k lrps []
    simp [Bifrost.List, callList, World.record, hlist, toDesiredLRPSchedulingInfo, hlrps, h]
  · simp
  · intro i l hl
    simp [List.getElem?_map, hl]
  · intro l key h
    exact Go.StrMap.get_of_not_contains _ _ h

/-- Witness of C7: with `odin` alone desired, `List` returns one record, `odin` / "21". -/
theorem List_one_record_per_lrp_witness :
    ∃ infos : List models.DesiredLRPSchedulingInfo,
      (scenario.dispatcher.List scenario.consts scenario.world).1 =
        .returned (.of infos, none)
      ∧ infos.length = 1
      ∧ infos[0]? = some { ProcessGuid := "odin", Annotation := "21" } := by
  obtain ⟨infos, heq, hlen, hidx, -⟩ :=
    List_one_record_per_lrp scenario.dispatcher scenario.consts scenario.world
      (.of [some scenario.odin]) [scenario.odin] [scenario.odin] rfl rfl
  exact ⟨infos, by rw [heq], hlen, hidx 0 scenario.odin rfl⟩

/-- C9, as stated, fails: for `thor`, desired with 2^31 instances, `GetApp` returns a record
whose instance count is -2^31. -/
theorem GetApp_truncates_instances :
    (scenario.dispatcher.Desirer.Get "thor" scenario.worldOfThor.state).1 =
        (some scenario.thor, none)
    ∧ (scenario.dispatcher.GetApp "thor" scenario.worldOfThor).1 =
        .returned (some { ProcessGuid := "thor", Instances := -2147483648 })
    ∧ (-2147483648 : Int) ≠ scenario.thor.TargetInstances := by
  refine ⟨rfl, ?_, by decide⟩
  simp [Bifrost.GetApp, callGet, scenario.dispatcher, scenario.desirer, scenario.worldOfThor,
    scenario.thor, World.record, Go.toInt32]

/-- C9, amended: when `Desirer.Get` returns an LRP, `GetApp` returns a present record whose
`ProcessGuid` is the LRP's `Name` and whose instance count is `TargetInstances` converted
to `int32`; the count equals `TargetInstances` exactly when `TargetInstances` lies in
`[-2^31, 2^31)`. -/
theorem GetApp_projects_lrp {Req σ : Type} (b : Bifrost Req σ) (guid : String)
    (w : World Req σ) (lrp : opi.LRP) (s : σ)
    (hget : b.Desirer.Get guid w.state = ((some lrp, none), s)) :
    ∃ app : models.DesiredLRP,
      b.GetApp guid w = (.returned (some app), { state := s, trace := w.trace ++ [.get guid] })
      ∧ app.ProcessGuid = lrp.Name
      ∧ app.Instances = Go.toInt32 lrp.TargetInstances
      ∧ (app.Instances = lrp.TargetInstances ↔
          -2 ^ 31 ≤ lrp.TargetInstances ∧ lrp.TargetInstances < 2 ^ 31) := by
  refine ⟨{ ProcessGuid := lrp.Name, Instances := Go.toInt32 lrp.TargetInstances },
    ?_, rfl, rfl, Go.toInt32_eq_iff _⟩
  simp [Bifrost.GetApp, callGet, World.record, hget]

/-- Witness of C9: for `odin`, desired with two instances, the record carries `odin` and 2. -/
theorem GetApp_projects_lrp_witness :
    ∃ app : models.DesiredLRP,
      (scenario.dispatcher.GetApp "odin" scenario.world).1 = .returned (some app)
      ∧ app.ProcessGuid = "odin" ∧ app.Instances = 2 := by
  obtain ⟨app, heq, hname, hinst, -⟩ :=
    GetApp_projects_lrp scenario.dispatcher "odin" scenario.world scenario.odin
      [scenario.odin] rfl
  exact ⟨app, by rw [heq], hname, by rw [hinst]; decide⟩

end bifrost

/-! ## Deployment lister -/

namespace k8s

/-- The loop of `toLRPs` appends one identity-only LRP per item, in order. -/
theorem toLRPs_loop_eq (items : List Deployment) :
    ∀ xs : List opi.LRP,
      toLRPs.loop items (.of xs) =
        .of (xs ++ items.map (fun d =>
          { Name := d.Annotations.get "process_guid"
            TargetInstances := 0
            RunningInstances := 0
            Metadata := .nil })) := by
  induction items with
  | nil => intro xs; simp [toLRPs.loop]
  | cons d rest ih =>
    intro xs
    simp [toLRPs.loop, Go.Slice.append, Go.Slice.elems, ih]

/-- C10: when the orchestrator's list call returns a list of workload objects with no error,
`ListLRPs` returns, with no error, a non-nil sequence with one LRP per object, in order,
whose `Name` is the object's `process_guid` annotation (the empty string when it is
missing) and whose other fields are unpopulated; the sequence is the empty one for zero
objects. When the list call fails, `ListLRPs` returns the nil sequence and that same
error. (A nil list with a nil error makes `toLRPs` panic.) -/
theorem ListLRPs_identity_only {σ : Type} (m : deploymentManager σ) (ns : String) (s : σ) :
    match m.client ns s with
    | ((_, some err), s1) => m.ListLRPs ns s = (.returned (.nil, some err), s1)
    | ((some deployments, none), s1) =>
      m.ListLRPs ns s =
        (.returned (.of (deployments.Items.elems.map (fun d =>
          { Name := d.Annotations.get "process_guid"
            TargetInstances := 0
            RunningInstances := 0
            Metadata := .nil })), none), s1)
      ∧ (deployments.Items.elems = [] →
          m.ListLRPs ns s = (.returned (.of [], none), s1))
      ∧ (∀ d ∈ deployments.Items.elems, d.Annotations.contains "process_guid" = false →
          d.Annotations.get "process_guid" = "")
    | ((none, none), s1) => m.ListLRPs ns s = (.panicked .nilDereference, s1) := by
  rcases hc : m.client ns s with ⟨⟨deployments, err⟩, s1⟩
  cases err with
  | some e => simp [deploymentManager.ListLRPs, hc]
  | none =>
    cases deployments with
    | none => simp [deploymentManager.ListLRPs, hc, toLRPs]
    | some ds =>
      have h := toLRPs_loop_eq ds.Items.elems []
      refine ⟨?_, ?_, ?_⟩
      · simp [deploymentManager.ListLRPs, hc, toLRPs, h]
      · intro hnil
        simp [deploymentManager.ListLRPs, hc, toLRPs, hnil, toLRPs.loop]
      · intro d _ hd
        exact Go.StrMap.get_of_not_contains _ _ hd

/-- Witness of C10: two workload objects of `midgard`, the second without the annotation,
give the LRPs named `odin` and the empty string; listing another namespace returns the
client's error and the nil sequence. -/
theorem ListLRPs_identity_only_witness :
    scenario.lister.ListLRPs "midgard" scenario.deployments =
        (.returned
          (.of [{ Name := "odin", TargetInstances := 0, RunningInstances := 0, Metadata := .nil },
                { Name := "", TargetInstances := 0, RunningInstances := 0, Metadata := .nil }],
            none), scenario.deployments)
    ∧ scenario.lister.ListLRPs "asgard" scenario.deployments =
        (.returned (.nil, some (.new "forbidden")), scenario.deployments) :=
  ⟨(ListLRPs_identity_only scenario.lister "midgard" scenario.deployments).1,
    ListLRPs_identity_only scenario.lister "asgard" scenario.deployments⟩

end k8s

/-! ## Service manager -/

namespace k8s

/-- Creating an object whose name is taken fails with Conflict and changes nothing. -/
theorem Store.create_of_present (store : Store) (svc existing : Service)
    (h : store.get svc.Namespace svc.Name = some existing) :
    store.create svc = (some .Conflict, store) := by
  simp [Store.create, h]

/-- Creating an object whose name is free succeeds and adds the object. -/
theorem Store.create_of_absent (store : Store) (svc : Service)
    (h : store.get svc.Namespace svc.Name = none) :
    store.create svc = (none, store ++ [svc]) := by
  simp [Store.create, h]

/-- An object added under a free name is the one read back under that name. -/
theorem Store.get_append_self (store : Store) (svc : Service)
    (h : store.get svc.Namespace svc.Name = none) :
    Store.get (store ++ [svc]) svc.Namespace svc.Name = some svc := by
  simp only [Store.get] at h
  simp [Store.get, List.find?_append, h, Service.isNamed]

/-- Deleting a name the namespace does not hold fails with NotFound and changes nothing. -/
theorem Store.delete_of_absent (store : Store) (ns name : String)
    (h : store.get ns name = none) :
    store.delete ns name = (some .NotFound, store) := by
  simp [Store.delete, h]

/-- Deleting a name the namespace holds succeeds and filters that object out. -/
theorem Store.delete_of_present (store : Store) (ns name : String) (existing : Service)
    (h : store.get ns name = some existing) :
    store.delete ns name = (none, store.filter (fun s => !Service.isNamed ns name s)) := by
  simp [Store.delete, h]

/-- After the objects called `name` in `ns` are filtered out, none is found. -/
theorem Store.get_filter_self (store : Store) (ns name : String) :
    Store.get (store.filter (fun s => !Service.isNamed ns name s)) ns name = none := by
  simp only [Store.get, List.find?_eq_none, List.mem_filter]
  rintro s ⟨-, hs⟩
  simpa using hs

/-- Filtering out the objects called `name` in `ns` does not change what is found under
another namespace or name. -/
theorem Store.get_filter_other (store : Store) (ns name ns1 name1 : String)
    (h : ¬ (ns1 = ns ∧ name1 = name)) :
    Store.get (store.filter (fun s => !Service.isNamed ns name s)) ns1 name1 =
      store.get ns1 name1 := by
  induction store with
  | nil => rfl
  | cons s rest ih =>
    simp only [Store.get] at ih ⊢
    by_cases hs : Service.isNamed ns name s = true
    · have hs1 : Service.isNamed ns1 name1 s = false := by
        simp only [Service.isNamed, Bool.and_eq_true, beq_iff_eq] at hs
        simp only [Service.isNamed, Bool.and_eq_false_iff, beq_eq_false_iff_ne]
        by_contra hcon
        push_neg at hcon
        exact h ⟨hcon.1.symm.trans hs.1, hcon.2.symm.trans hs.2⟩
      simp [List.filter, hs, List.find?, hs1, ih]
    · have hs0 : Service.isNamed ns name s = false := by simpa using hs
      by_cases hs1 : Service.isNamed ns1 name1 s = true
      · simp [List.filter, hs0, List.find?, hs1]
      · have hs2 : Service.isNamed ns1 name1 s = false := by simpa using hs1
        simp [List.filter, hs0, List.find?, hs2, ih]

/-- C3: `Create` (and likewise `CreateHeadless`) called when the namespace already holds an
object of the LRP's routable (respectively headless) name fails with Conflict and leaves
the whole store unchanged; called when the name is free it succeeds, and a second `Create`
for the same LRP identity then fails with Conflict, leaves the store unchanged and the
first object in place. -/
theorem Create_only_if_absent (m : ServiceManager) (lrp : opi.LRP) (store : Store) :
    (match store.get m.ns (eirini.GetInternalServiceName lrp.Name) with
      | some _ => m.Create lrp store = (some .Conflict, store)
      | none =>
        (m.Create lrp store).1 = none
        ∧ ∀ again : opi.LRP, again.Name = lrp.Name →
            m.Create again (m.Create lrp store).2 = (some .Conflict, (m.Create lrp store).2)
            ∧ (m.Create again (m.Create lrp store).2).2.get m.ns
                (eirini.GetInternalServiceName lrp.Name) = some (routableObject m.consts lrp m.ns))
    ∧ (match store.get m.ns (eirini.GetInternalHeadlessServiceName lrp.Name) with
      | some _ => m.CreateHeadless lrp store = (some .Conflict, store)
      | none =>
        (m.CreateHeadless lrp store).1 = none
        ∧ ∀ again : opi.LRP, again.Name = lrp.Name →
            m.CreateHeadless again (m.CreateHeadless lrp store).2 =
              (some .Conflict, (m.CreateHeadless lrp store).2)
            ∧ (m.CreateHeadless again (m.CreateHeadless lrp store).2).2.get m.ns
                (eirini.GetInternalHeadlessServiceName lrp.Name) =
                  some (headlessObject lrp m.ns)) := by
  constructor
  · cases h : store.get m.ns (eirini.GetInternalServiceName lrp.Name) with
    | some existing =>
      exact Store.create_of_present store (routableObject m.consts lrp m.ns) existing h
    | none =>
      have hc := Store.create_of_absent store (routableObject m.consts lrp m.ns) h
      have hg := Store.get_append_self store (routableObject m.consts lrp m.ns) h
      refine ⟨by simp [ServiceManager.Create, hc], ?_⟩
      intro again hname
      have hg1 : Store.get (store ++ [routableObject m.consts lrp m.ns])
          (routableObject m.consts again m.ns).Namespace
          (routableObject m.consts again m.ns).Name =
            some (routableObject m.consts lrp m.ns) := by
        simpa [routableObject, hname] using hg
      have hc2 := Store.create_of_present _ (routableObject m.consts again m.ns) _ hg1
      simp only [ServiceManager.Create, hc, hc2, true_and]
      exact hg
  · cases h : store.get m.ns (eirini.GetInternalHeadlessServiceName lrp.Name) with
    | some existing =>
      exact Store.create_of_present store (headlessObject lrp m.ns) existing h
    | none =>
      have hc := Store.create_of_absent store (headlessObject lrp m.ns) h
      have hg := Store.get_append_self store (headlessObject lrp m.ns) h
      refine ⟨by simp [ServiceManager.CreateHeadless, hc], ?_⟩
      intro again hname
      have hg1 : Store.get (store ++ [headlessObject lrp m.ns])
          (headlessObject again m.ns).Namespace (headlessObject again m.ns).Name =
            some (headlessObject lrp m.ns) := by
        simpa [headlessObject, hname] using hg
      have hc2 := Store.create_of_present _ (headlessObject again m.ns) _ hg1
      simp only [ServiceManager.CreateHeadless, hc, hc2, true_and]
      exact hg

end k8s

namespace k8s

/-- Witness of C3: in an empty store, creating the service of `baldur` succeeds and creating
it again fails with Conflict. -/
theorem Create_only_if_absent_witness :
    (scenario.serviceManager.Create scenario.baldur []).1 = none
    ∧ (scenario.serviceManager.Create scenario.baldur
        (scenario.serviceManager.Create scenario.baldur []).2).1 = some .Conflict := by
  have h : (scenario.serviceManager.Create scenario.baldur []).1 = none
      ∧ ∀ again : opi.LRP, again.Name = scenario.baldur.Name →
          scenario.serviceManager.Create again
              (scenario.serviceManager.Create scenario.baldur []).2 =
            (some .Conflict, (scenario.serviceManager.Create scenario.baldur []).2)
          ∧ (scenario.serviceManager.Create again
              (scenario.serviceManager.Create scenario.baldur []).2).2.get
                scenario.serviceManager.ns
                (eirini.GetInternalServiceName scenario.baldur.Name) =
              some (routableObject scenario.serviceManager.consts scenario.baldur
                scenario.serviceManager.ns) :=
    (Create_only_if_absent scenario.serviceManager scenario.baldur []).1
  exact ⟨h.1, by rw [(h.2 scenario.baldur rfl).1]⟩

/-- C5: `Delete(name)` (and likewise `DeleteHeadless(name)`) succeeds exactly when the
namespace holds an object of the routable (respectively headless) name derived from
`name`: then that object is removed and no other, and a second `Delete` fails with
NotFound; when the namespace holds no such object, `Delete` fails with NotFound and leaves
the store unchanged. Hence `Create` on a free name, then `Delete`, then `Delete` again
yield success, success, NotFound. -/
theorem Delete_only_if_present (m : ServiceManager) (name : String) (store : Store) :
    (match store.get m.ns (eirini.GetInternalServiceName name) with
      | some _ =>
        (m.Delete name store).1 = none
        ∧ (m.Delete name store).2.get m.ns (eirini.GetInternalServiceName name) = none
        ∧ (∀ s : Service, s ∈ (m.Delete name store).2 ↔
            s ∈ store ∧ ¬ (s.Namespace = m.ns ∧ s.Name = eirini.GetInternalServiceName name))
        ∧ (∀ ns1 name1 : String,
            ¬ (ns1 = m.ns ∧ name1 = eirini.GetInternalServiceName name) →
              (m.Delete name store).2.get ns1 name1 = store.get ns1 name1)
        ∧ m.Delete name (m.Delete name store).2 = (some .NotFound, (m.Delete name store).2)
      | none => m.Delete name store = (some .NotFound, store))
    ∧ (match store.get m.ns (eirini.GetInternalHeadlessServiceName name) with
      | some _ =>
        (m.DeleteHeadless name store).1 = none
        ∧ (m.DeleteHeadless name store).2.get m.ns
            (eirini.GetInternalHeadlessServiceName name) = none
        ∧ (∀ s : Service, s ∈ (m.DeleteHeadless name store).2 ↔
            s ∈ store ∧
              ¬ (s.Namespace = m.ns ∧ s.Name = eirini.GetInternalHeadlessServiceName name))
        ∧ (∀ ns1 name1 : String,
            ¬ (ns1 = m.ns ∧ name1 = eirini.GetInternalHeadlessServiceName name) →
              (m.DeleteHeadless name store).2.get ns1 name1 = store.get ns1 name1)
        ∧ m.DeleteHeadless name (m.DeleteHeadless name store).2 =
            (some .NotFound, (m.DeleteHeadless name store).2)
      | none => m.DeleteHeadless name store = (some .NotFound, store))
    ∧ (∀ lrp : opi.LRP, lrp.Name = name →
        store.get m.ns (eirini.GetInternalServiceName name) = none →
          (m.Create lrp store).1 = none
          ∧ (m.Delete name (m.Create lrp store).2).1 = none
          ∧ (m.Delete name (m.Delete name (m.Create lrp store).2).2).1 = some .NotFound)
    ∧ (∀ lrp : opi.LRP, lrp.Name = name →
        store.get m.ns (eirini.GetInternalHeadlessServiceName name) = none →
          (m.CreateHeadless lrp store).1 = none
          ∧ (m.DeleteHeadless name (m.CreateHeadless lrp store).2).1 = none
          ∧ (m.DeleteHeadless name
              (m.DeleteHeadless name (m.CreateHeadless lrp store).2).2).1 = some .NotFound) := by
  have key : ∀ (st : Store) (n : String),
      match st.get m.ns n with
      | some _ =>
        (st.delete m.ns n).1 = none
        ∧ (st.delete m.ns n).2.get m.ns n = none
        ∧ (∀ s : Service, s ∈ (st.delete m.ns n).2 ↔
            s ∈ st ∧ ¬ (s.Namespace = m.ns ∧ s.Name = n))
        ∧ (∀ ns1 name1 : String, ¬ (ns1 = m.ns ∧ name1 = n) →
            (st.delete m.ns n).2.get ns1 name1 = st.get ns1 name1)
        ∧ (st.delete m.ns n).2.delete m.ns n = (some .NotFound, (st.delete m.ns n).2)
      | none => st.delete m.ns n = (some .NotFound, st) := by
    intro st n
    cases h : st.get m.ns n with
    | none => exact Store.delete_of_absent st m.ns n h
    | some existing =>
      have hd := Store.delete_of_present st m.ns n existing h
      simp only [hd]
      refine ⟨trivial, Store.get_filter_self st m.ns n, ?_, ?_, ?_⟩
      · intro s
        simp only [List.mem_filter, Service.isNamed, Bool.not_eq_true', Bool.and_eq_false_iff,
          beq_eq_false_iff_ne, ne_eq, not_and]
        constructor
        · rintro ⟨hs, hne⟩
          exact ⟨hs, fun h1 => by tauto⟩
        · rintro ⟨hs, hne⟩
          exact ⟨hs, by tauto⟩
      · intro ns1 name1 hne
        exact Store.get_filter_other st m.ns n ns1 name1 hne
      · exact Store.delete_of_absent _ m.ns n (Store.get_filter_self st m.ns n)
  have seq : ∀ (st : Store) (svc : Service), svc.Namespace = m.ns →
      st.get m.ns svc.Name = none →
        (st.create svc).1 = none
        ∧ ((st.create svc).2.delete m.ns svc.Name).1 = none
        ∧ (((st.create svc).2.delete m.ns svc.Name).2.delete m.ns svc.Name).1 =
            some .NotFound := by
    intro st svc hns habs
    have habs1 : st.get svc.Namespace svc.Name = none := by rw [hns]; exact habs
    have hc := Store.create_of_absent st svc habs1
    have hg : Store.get (st ++ [svc]) m.ns svc.Name = some svc := by
      have := Store.get_append_self st svc habs1
      rwa [hns] at this
    have hd := Store.delete_of_present (st ++ [svc]) m.ns svc.Name svc hg
    have hd2 := Store.delete_of_absent _ m.ns svc.Name
      (Store.get_filter_self (st ++ [svc]) m.ns svc.Name)
    simp only [hc, hd, hd2, and_self]
  refine ⟨key store _, key store _, ?_, ?_⟩
  · intro lrp hname habs
    subst hname
    exact seq store (routableObject m.consts lrp m.ns) rfl habs
  · intro lrp hname habs
    subst hname
    exact seq store (headlessObject lrp m.ns) rfl habs

/-- Witness of C5: in an empty store, for `baldur`: `Create` succeeds, `Delete` succeeds,
`Delete` again fails with NotFound. -/
theorem Delete_only_if_present_witness :
    (scenario.serviceManager.Create scenario.baldur []).1 = none
    ∧ (scenario.serviceManager.Delete "baldur"
        (scenario.serviceManager.Create scenario.baldur []).2).1 = none
    ∧ (scenario.serviceManager.Delete "baldur"
        (scenario.serviceManager.Delete "baldur"
          (scenario.serviceManager.Create scenario.baldur []).2).2).1 = some .NotFound :=
  (Delete_only_if_present scenario.serviceManager "baldur" []).2.2.1 scenario.baldur rfl rfl

/-- C8: when the namespace holds no object of the LRP's routable name, `Create` succeeds
and the object then stored under `GetInternalServiceName(lrp.Name)` is
`toService(lrp, namespace)`: that name and namespace, the single port 8080 called
"service", selector and label `name = lrp.Name`, and the single annotation `routes`, bound
to the LRP's routes metadata value. -/
theorem Create_stores_toService (m : ServiceManager) (lrp : opi.LRP) (store : Store)
    (habsent : store.get m.ns (eirini.GetInternalServiceName lrp.Name) = none) :
    (m.Create lrp store).1 = none
    ∧ (m.Create lrp store).2.get m.ns (eirini.GetInternalServiceName lrp.Name) =
        some (toService m.consts lrp m.ns)
    ∧ (toService m.consts lrp m.ns).Name = eirini.GetInternalServiceName lrp.Name
    ∧ (toService m.consts lrp m.ns).Namespace = m.ns
    ∧ (toService m.consts lrp m.ns).Spec.Ports = .of [{ Name := "service", Port := 8080 }]
    ∧ (toService m.consts lrp m.ns).Spec.Selector = .of [("name", lrp.Name)]
    ∧ (toService m.consts lrp m.ns).Labels = .of [("name", lrp.Name)]
    ∧ (toService m.consts lrp m.ns).Annotations =
        .of [("routes", lrp.Metadata.get m.consts.VcapAppUris)] := by
  have hc := Store.create_of_absent store (routableObject m.consts lrp m.ns) habsent
  have hg := Store.get_append_self store (routableObject m.consts lrp m.ns) habsent
  refine ⟨by simp [ServiceManager.Create, hc], ?_, rfl, rfl, rfl, rfl, rfl, rfl⟩
  simp only [ServiceManager.Create, hc]
  exact hg

/-- Witness of C8 (scenario A): in an empty store, `Create` for `baldur` with routes
`54321.0` succeeds and stores, under the routable name, an object with selector
`name = baldur`, port 8080 and annotation `routes = 54321.0`. -/
theorem Create_stores_toService_witness :
    (scenario.serviceManager.Create scenario.baldur []).1 = none
    ∧ (scenario.serviceManager.Create scenario.baldur []).2.get "midgard"
        (eirini.GetInternalServiceName "baldur") =
        some
          { Name := "baldur"
            Namespace := "midgard"
            Labels := .of [("name", "baldur")]
            Annotations := .of [("routes", "54321.0")]
            Spec :=
              { ClusterIP := ""
                Ports := .of [{ Name := "service", Port := 8080 }]
                Selector := .of [("name", "baldur")] } } := by
  have h := Create_stores_toService scenario.serviceManager scenario.baldur [] rfl
  exact ⟨h.1, h.2.1⟩

end k8s

/-! ## The service tests, replayed on the model -/

namespace k8s

/-- Test "When deleting / a regular service": with the service of `odin` in the namespace,
`Delete("odin")` succeeds and the namespace is then empty; `Delete("tyr")` fails. -/
theorem Delete_regular_service_test :
    (scenario.serviceManager.Delete "odin"
        [toService scenario.consts scenario.odinRoutes "midgard"]).1 = none
    ∧ Store.list (scenario.serviceManager.Delete "odin"
        [toService scenario.consts scenario.odinRoutes "midgard"]).2 "midgard" = []
    ∧ (scenario.serviceManager.Delete "tyr"
        (scenario.serviceManager.Delete "odin"
          [toService scenario.consts scenario.odinRoutes "midgard"]).2).1 = some .NotFound := by
  refine ⟨by decide, by decide, by decide⟩

/-- Test "When deleting / a headless service": with the headless service of `odin` in the
namespace, `DeleteHeadless("odin")` succeeds and the namespace is then empty;
`DeleteHeadless("tyr")` fails. -/
theorem Delete_headless_service_test :
    (scenario.serviceManager.DeleteHeadless "odin"
        [toHeadlessService scenario.odinRoutes "midgard"]).1 = none
    ∧ Store.list (scenario.serviceManager.DeleteHeadless "odin"
        [toHeadlessService scenario.odinRoutes "midgard"]).2 "midgard" = []
    ∧ (scenario.serviceManager.DeleteHeadless "tyr"
        (scenario.serviceManager.DeleteHeadless "odin"
          [toHeadlessService scenario.odinRoutes "midgard"]).2).1 = some .NotFound := by
  refine ⟨by decide, by decide, by decide⟩

/-- Test "When creating a headless service": in an empty namespace `CreateHeadless` for
`baldur` succeeds, the object read back under the headless name is
`toHeadlessService(lrp, namespace)`, and creating it again fails. -/
theorem Create_headless_service_test :
    (scenario.serviceManager.CreateHeadless scenario.baldur []).1 = none
    ∧ (scenario.serviceManager.CreateHeadless scenario.baldur []).2.get "midgard"
        (eirini.GetInternalHeadlessServiceName "baldur") =
          some (toHeadlessService scenario.baldur "midgard")
    ∧ (scenario.serviceManager.CreateHeadless scenario.baldur
        (scenario.serviceManager.CreateHeadless scenario.baldur []).2).1 = some .Conflict := by
  refine ⟨by decide, by decide, by decide⟩

end k8s

/-! ## The failure path of `List` -/

namespace bifrost

/-- When `Desirer.List` fails, `List` logs and returns the nil sequence together with the
error wrapped by "failed to list desired LRPs". -/
theorem List_on_failure {Req σ : Type} (b : Bifrost Req σ) (k : cf.Consts) (w : World Req σ)
    (slice : Go.Slice (Option opi.LRP)) (err : Go.Error) (s : σ)
    (hlist : b.Desirer.List w.state = ((slice, some err), s)) :
    b.List k w =
      (.returned (.nil, some (.wrap err "failed to list desired LRPs")),
        { state := s
          trace := w.trace ++ [.list, .logError "failed-to-list-deployments" err []] }) := by
  simp [Bifrost.List, callList, World.logError, World.record, hlist]

end bifrost
